import Mathlib

/-!
Shallow embedding of `program_11.py`, the streamflow presentation-graphics
script: the record reader (`ReadData`), the range clipper (`ClipData`), the
metrics loader (`ReadMetrics`), the monthly aggregator
(`GetMonthlyStatistics`), and the figure-6 exceedance computation.

Discharge values are rationals; a pandas `NaN` (absent value) is `none` in
an `Option ℚ`.  Calendar dates are year/month/day triples ordered
lexicographically, matching the `DatetimeIndex` ordering used by the
script.
-/

/-- A calendar date, the index of every discharge table. -/
structure Date where
  y : Nat
  m : Nat
  d : Nat
deriving DecidableEq, Repr

/-- Lexicographic order on dates, as a `DatetimeIndex` compares labels. -/
def dateLe (a b : Date) : Prop :=
  a.y < b.y ∨ (a.y = b.y ∧ (a.m < b.m ∨ (a.m = b.m ∧ a.d ≤ b.d)))

instance (a b : Date) : Decidable (dateLe a b) := by
  unfold dateLe; infer_instance

/-- A raw discharge cell as it appears in the whitespace-delimited USGS
file before `read_csv` interprets it: a numeric token, a blank (standard
missing-value convention), or the literal sentinel `"Eqp"`. -/
inductive RawDischarge where
  | num (q : ℚ)
  | blank
  | eqp
deriving DecidableEq, Repr

/-- One raw file row: observation date plus the discharge cell (the agency,
site and quality columns never influence the computations modelled here). -/
structure RawRow where
  date : Date
  discharge : RawDischarge
deriving DecidableEq, Repr

/-- `read_csv` cell semantics with `na_values=['Eqp']`: a numeric token
parses to its value, blanks become `NaN`, and the `"Eqp"` sentinel also
becomes `NaN`. -/
def parseCell : RawDischarge → Option ℚ
  | RawDischarge.num q => some q
  | RawDischarge.blank => none
  | RawDischarge.eqp => none

/-- The gross-error screen of line 34:
`DataDF['Discharge'].mask((DataDF['Discharge'] < 0), np.nan)` — a negative
discharge is overwritten with `NaN`, everything else passes through. -/
def grossErrorMask : Option ℚ → Option ℚ
  | some q => if q < 0 then none else some q
  | none => none

/-- A date-indexed discharge table: the `Date` index paired with the
`Discharge` column (`none` = `NaN`). -/
def DischargeTable := List (Date × Option ℚ)

/-- `DataDF["Discharge"].isna().sum()`: the number of absent discharge
entries of a table. -/
def countMissing (t : List (Date × Option ℚ)) : Nat :=
  (t.filter (fun p => p.2.isNone)).length

/-- `ReadData`: parse the raw rows (with the `Eqp` sentinel), apply the
gross-error mask to the discharge column, then count the missing values of
the resulting table. -/
def ReadData (rows : List RawRow) : List (Date × Option ℚ) × Nat :=
  let DataDF := rows.map (fun r => (r.date, grossErrorMask (parseCell r.discharge)))
  (DataDF, countMissing DataDF)

/-- `ClipData`: `DataDF[startDate:endDate]` keeps exactly the rows whose
date lies in the inclusive window, then the missing count is recomputed on
the clipped table. -/
def ClipData (DataDF : List (Date × Option ℚ)) (startDate endDate : Date) :
    List (Date × Option ℚ) × Nat :=
  let clipped := DataDF.filter (fun p => decide (dateLe startDate p.1) && decide (dateLe p.1 endDate))
  (clipped, countMissing clipped)

/-- The month-start bucket a date falls into, encoded as
`year * 12 + (month - 1)` so that consecutive calendar months are
consecutive naturals, exactly as `resample('MS')` buckets labels. -/
def monthIdx (dt : Date) : Nat := dt.y * 12 + (dt.m - 1)

/-- The calendar month number (1–12) of a month-start bucket, as
`MoDataDF.index.month` reads it back. -/
def bucketMonth (b : Nat) : Nat := b % 12 + 1

/-- Pandas `mean()` over a column: `NaN`-skipping, and `NaN` when no
non-`NaN` value contributes. -/
def meanOpt (vs : List ℚ) : Option ℚ :=
  if vs.length = 0 then none else some (vs.sum / vs.length)

/-- `DataDF.resample('MS').mean()`: one bucket for every month-start
between the first and the last index label (empty months included), each
holding the `NaN`-skipping mean of the discharge values of its days. -/
def resampleMS (t : List (Date × Option ℚ)) : List (Nat × Option ℚ) :=
  match t.map (fun p => monthIdx p.1) with
  | [] => []
  | b :: bs =>
    let lo := bs.foldl Nat.min b
    let hi := bs.foldl Nat.max b
    (List.range (hi + 1 - lo)).map (fun k =>
      (lo + k,
       meanOpt ((t.filter (fun p => monthIdx p.1 = lo + k)).filterMap (fun p => p.2))))

/-- `GetMonthlyStatistics`: resample into month-start buckets, average
within each bucket, then `groupby(MoDataDF.index.month).mean()` — group
the bucket means by calendar month number (groupby keys come out sorted
ascending, every month that owns at least one bucket yields a row, and the
group mean skips `NaN` buckets, staying `NaN` when all buckets are). -/
def GetMonthlyStatistics (DataDF : List (Date × Option ℚ)) : List (Nat × Option ℚ) :=
  let buckets := resampleMS DataDF
  (List.range 12).filterMap (fun j =>
    let grp := buckets.filter (fun b => bucketMonth b.1 = j + 1)
    if grp.isEmpty then none
    else some (j + 1, meanOpt (grp.filterMap (fun b => b.2))))

/-- One parsed row of a metrics CSV, after `read_csv` tokenization: the
`Date` column plus the other columns the round-trip claim names
(`Station`, `Coeff Var`). -/
structure MetricsRow where
  date : Date
  station : String
  coeffVar : ℚ
deriving DecidableEq

/-- `ReadMetrics`: `read_csv` followed by `set_index('Date')` — the `Date`
column becomes the index and every other column passes through
unmodified. -/
def ReadMetrics (rows : List MetricsRow) : List (Date × String × ℚ) :=
  rows.map (fun r => (r.date, r.station, r.coeffVar))

/-- Modelled from the spec: the CSV serialization (pandas `to_csv`, used
by the upstream assignment that produced `Annual_Metrics.csv` /
`Monthly_Metrics.csv`, not present in this repository) writing a
date-indexed table with `Station` and `Coeff Var` columns back to rows;
lossless for the modelled fields, so float round-trip tolerance is exact
here. -/
def writeMetricsCSV (t : List (Date × String × ℚ)) : List MetricsRow :=
  t.map (fun p => ⟨p.1, p.2.1, p.2.2⟩)

/-- `sort_values(ascending=False)`: a stable descending sort of the peak
flows. -/
def sortDesc (xs : List ℚ) : List ℚ :=
  List.insertionSort (fun a b => b ≤ a) xs

/-- The number of entries of `xs` strictly below `x`. -/
def countLt (xs : List ℚ) (x : ℚ) : Nat := (xs.filter (fun v => v < x)).length

/-- The number of entries of `xs` equal to `x`. -/
def countEq (xs : List ℚ) (x : ℚ) : Nat := (xs.filter (fun v => v = x)).length

/-- `scipy.stats.rankdata(xs, method='average')`: each entry's ascending
rank, ties replaced by the average of the ranks they would occupy. -/
def rankAvg (xs : List ℚ) : List ℚ :=
  xs.map (fun x => (countLt xs x : ℚ) + ((countEq xs x : ℚ) + 1) / 2)

/-- The figure-6 exceedance list: ranks of the descending-sorted peaks,
reversed, each divided by `n + 1`
(`[(trank_rev[i]/(len(peak)+1)) for i in range(len(peak))]`). -/
def fig6exc (peaks : List ℚ) : List ℚ :=
  ((rankAvg (sortDesc peaks)).reverse).map (fun r => r / ((peaks.length : ℚ) + 1))

/-- The figure-6 scatter pairs `(exceedance, peak)`:
`plt.scatter(tippe_exc, tippe_peak)` pairs the i-th exceedance with the
i-th descending-sorted peak. -/
def fig6pairs (peaks : List ℚ) : List (ℚ × ℚ) :=
  (fig6exc peaks).zip (sortDesc peaks)

/-- Transitivity of the lexicographic date order. -/
theorem dateLe_trans {a b c : Date} (hab : dateLe a b) (hbc : dateLe b c) :
    dateLe a c := by
  unfold dateLe at *
  rcases hab with h | ⟨h1, h | ⟨h2, h3⟩⟩ <;>
    rcases hbc with g | ⟨g1, g | ⟨g2, g3⟩⟩ <;> omega

/-- The table `ReadData` returns has one row per raw input row. -/
theorem readData_length (rows : List RawRow) :
    (ReadData rows).1.length = rows.length := by
  simp [ReadData]

/-- C1: for every input file row, a raw discharge value `v < 0` becomes
absent (`none`) in the table `ReadData` returns, and every `v ≥ 0` passes
through unchanged; the missing-value count is computed from the
already-remapped table, so remapped values are included in it. -/
theorem readData_grossErrorScreen (rows : List RawRow) (i : Nat)
    (h : i < rows.length) (v : ℚ)
    (hv : (rows.get ⟨i, h⟩).discharge = RawDischarge.num v) :
    (ReadData rows).1.getD i (⟨0, 0, 0⟩, none) =
      ((rows.get ⟨i, h⟩).date, if v < 0 then none else some v)
    ∧ (ReadData rows).2 = countMissing (ReadData rows).1 := by
  refine ⟨?_, rfl⟩
  have hlen : i < (ReadData rows).1.length := by
    rw [readData_length]; exact h
  rw [List.getD_eq_getElem _ _ hlen]
  simp [ReadData, grossErrorMask, parseCell, List.get_eq_getElem] at *
  rw [hv]

/-- Witness for C1 at a concrete row: the raw value `-3` on 2014-10-01
comes out absent and the count sees it. -/
theorem readData_grossErrorScreen_witness :
    (ReadData [⟨⟨2014, 10, 1⟩, RawDischarge.num (-3)⟩]).1.getD 0 (⟨0, 0, 0⟩, none) =
      (([⟨⟨2014, 10, 1⟩, RawDischarge.num (-3)⟩] : List RawRow).get ⟨0, by decide⟩ |>.date,
        if (-3 : ℚ) < 0 then none else some (-3))
    ∧ (ReadData [⟨⟨2014, 10, 1⟩, RawDischarge.num (-3)⟩]).2 =
        countMissing (ReadData [⟨⟨2014, 10, 1⟩, RawDischarge.num (-3)⟩]).1 :=
  readData_grossErrorScreen [⟨⟨2014, 10, 1⟩, RawDischarge.num (-3)⟩] 0 (by decide)
    (-3) rfl

/-- C9: the literal token `"Eqp"` is a missing-value sentinel: every `Eqp`
cell becomes an absent discharge in the returned table, and the
missing-value count is the count of absent entries of that table, so it
includes the `Eqp` rows. -/
theorem readData_eqpSentinel (rows : List RawRow) (i : Nat)
    (h : i < rows.length)
    (hv : (rows.get ⟨i, h⟩).discharge = RawDischarge.eqp) :
    ((ReadData rows).1.getD i (⟨0, 0, 0⟩, none)).2 = none
    ∧ (ReadData rows).2 = countMissing (ReadData rows).1 := by
  refine ⟨?_, rfl⟩
  have hlen : i < (ReadData rows).1.length := by
    rw [readData_length]; exact h
  rw [List.getD_eq_getElem _ _ hlen]
  simp [ReadData, grossErrorMask, parseCell, List.get_eq_getElem] at *
  rw [hv]

/-- Witness for C9 at a concrete row: an `Eqp` cell on 2014-10-02 comes
out absent and the count is recomputed over the table holding it. -/
theorem readData_eqpSentinel_witness :
    ((ReadData [⟨⟨2014, 10, 2⟩, RawDischarge.eqp⟩]).1.getD 0 (⟨0, 0, 0⟩, none)).2 = none
    ∧ (ReadData [⟨⟨2014, 10, 2⟩, RawDischarge.eqp⟩]).2 =
        countMissing (ReadData [⟨⟨2014, 10, 2⟩, RawDischarge.eqp⟩]).1 :=
  readData_eqpSentinel [⟨⟨2014, 10, 2⟩, RawDischarge.eqp⟩] 0 (by decide) rfl

/-- C3: both `ReadData` and `ClipData` return a missing-value count equal
to the number of absent discharge entries of the very table they return —
the count is recomputed from the table, never incrementally maintained. -/
theorem missingCount_matches_table (rows : List RawRow)
    (t : List (Date × Option ℚ)) (s e : Date) :
    (ReadData rows).2 = countMissing (ReadData rows).1
    ∧ (ClipData t s e).2 = countMissing (ClipData t s e).1 :=
  ⟨rfl, rfl⟩

/-- C4: with `start ≤ end`, the clipped table holds exactly the input rows
whose date lies in the inclusive window; no row is dropped for an absent
discharge, so the clipped length equals the number of calendar days of the
input that fall in the window. -/
theorem clipData_window (t : List (Date × Option ℚ)) (s e : Date)
    (hse : dateLe s e) :
    (∀ p : Date × Option ℚ,
        p ∈ (ClipData t s e).1 ↔ p ∈ t ∧ dateLe s p.1 ∧ dateLe p.1 e)
    ∧ (ClipData t s e).1.length =
        ((t.map Prod.fst).filter
          (fun dt => decide (dateLe s dt) && decide (dateLe dt e))).length := by
  constructor
  · intro p
    simp [ClipData, List.mem_filter, and_assoc]
  · simp only [ClipData, List.filter_map, List.length_map]
    rfl

/-- Witness for C4 at a concrete window and table: the absent-discharge
row on 2015-01-01 stays in the 2014-10-01 … 2019-09-30 clip, and the clip
length counts every in-window day. -/
theorem clipData_window_witness :
    ((⟨⟨2015, 1, 1⟩, none⟩ : Date × Option ℚ) ∈
        (ClipData [(⟨2014, 10, 1⟩, some 2), (⟨2015, 1, 1⟩, none), (⟨2020, 1, 1⟩, some 4)]
          ⟨2014, 10, 1⟩ ⟨2019, 9, 30⟩).1 ↔
      (⟨⟨2015, 1, 1⟩, none⟩ : Date × Option ℚ) ∈
          [(⟨2014, 10, 1⟩, some 2), (⟨2015, 1, 1⟩, none), (⟨2020, 1, 1⟩, some 4)]
        ∧ dateLe ⟨2014, 10, 1⟩ ⟨2015, 1, 1⟩ ∧ dateLe ⟨2015, 1, 1⟩ ⟨2019, 9, 30⟩)
    ∧ (ClipData [(⟨2014, 10, 1⟩, some 2), (⟨2015, 1, 1⟩, none), (⟨2020, 1, 1⟩, some 4)]
          ⟨2014, 10, 1⟩ ⟨2019, 9, 30⟩).1.length =
        ((([(⟨2014, 10, 1⟩, some 2), (⟨2015, 1, 1⟩, none), (⟨2020, 1, 1⟩, some 4)] :
            List (Date × Option ℚ)).map Prod.fst).filter
          (fun dt => decide (dateLe ⟨2014, 10, 1⟩ dt) && decide (dateLe dt ⟨2019, 9, 30⟩))).length :=
  ⟨(clipData_window _ _ _ (by decide)).1 _, (clipData_window _ _ _ (by decide)).2⟩

/-- C5: when `start > end`, or the window lies entirely before or entirely
after every date of the table, `ClipData` returns an empty table and a
missing-value count of `0`, raising no error. -/
theorem clipData_emptyRange (t : List (Date × Option ℚ)) (s e : Date)
    (h : ¬ dateLe s e ∨ (∀ p ∈ t, ¬ dateLe p.1 e) ∨ (∀ p ∈ t, ¬ dateLe s p.1)) :
    ClipData t s e = ([], 0) := by
  have hnil : t.filter (fun p => decide (dateLe s p.1) && decide (dateLe p.1 e)) = [] := by
    rw [List.filter_eq_nil_iff]
    intro p hp
    simp only [Bool.and_eq_true, decide_eq_true_eq, not_and]
    intro hs he
    rcases h with h | h | h
    · exact h (dateLe_trans hs he)
    · exact h p hp he
    · exact h p hp hs
  simp [ClipData, hnil, countMissing]

/-- Witness for C5 at a concrete reversed window (`start > end`) over a
nonempty table. -/
theorem clipData_emptyRange_witness :
    ClipData [(⟨2015, 1, 1⟩, some 2)] ⟨2020, 1, 1⟩ ⟨2019, 1, 1⟩ = ([], 0) :=
  clipData_emptyRange [(⟨2015, 1, 1⟩, some 2)] ⟨2020, 1, 1⟩ ⟨2019, 1, 1⟩
    (Or.inl (by decide))

/-- C6: `ClipData` is idempotent — clipping an already-clipped table to
the same inclusive window returns the identical table and the same
missing-value count. -/
theorem clipData_idempotent (t : List (Date × Option ℚ)) (s e : Date) :
    ClipData (ClipData t s e).1 s e = ClipData t s e := by
  simp [ClipData, List.filter_filter]

/-- C8: `ReadMetrics` moves the `Date` column to the index and passes
every other column (station identifier, `Coeff Var`) through unmodified,
so reloading a table serialized to CSV gives the same row count and the
same `Coeff Var` values (exactly, in this rational model, hence within any
floating-point tolerance). -/
theorem readMetrics_preserves_columns :
    (∀ rows : List MetricsRow,
        (ReadMetrics rows).map (fun p => p.2) =
          rows.map (fun r => (r.station, r.coeffVar)))
    ∧ ∀ t : List (Date × String × ℚ),
        ReadMetrics (writeMetricsCSV t) = t
        ∧ (ReadMetrics (writeMetricsCSV t)).length = t.length
        ∧ (ReadMetrics (writeMetricsCSV t)).map (fun p => p.2.2) =
            t.map (fun p => p.2.2) := by
  constructor
  · intro rows
    simp [ReadMetrics]
  · intro t
    have hrt : ReadMetrics (writeMetricsCSV t) = t := by
      simp only [ReadMetrics, writeMetricsCSV, List.map_map]
      exact List.map_id t
    exact ⟨hrt, by rw [hrt], by rw [hrt]⟩

/-- Concrete evaluation of the aggregator on a two-year table whose
January monthly means are 10 and 30. -/
theorem getMonthly_janTwoYear_eval :
    GetMonthlyStatistics [(⟨2000, 1, 1⟩, some 10), (⟨2001, 1, 1⟩, some 30)] =
      [(1, some 20), (2, none), (3, none), (4, none), (5, none), (6, none),
       (7, none), (8, none), (9, none), (10, none), (11, none), (12, none)] := by
  norm_num [GetMonthlyStatistics, resampleMS, monthIdx, meanOpt, bucketMonth,
    List.range_succ, List.filterMap_cons, Option.some_ne_none, reduceCtorEq]

/-- C2: every row of the aggregator's output carries a calendar month
number in 1–12 computed as the `NaN`-skipping mean of the month-start
bucket means of that calendar month; the output index has no duplicates;
and on a two-year input whose January monthly means are 10 and 30 the
aggregated January discharge is 20. -/
theorem getMonthlyStatistics_spec :
    (∀ (t : List (Date × Option ℚ)) (p : Nat × Option ℚ),
        p ∈ GetMonthlyStatistics t →
          (1 ≤ p.1 ∧ p.1 ≤ 12)
          ∧ p.2 = meanOpt (((resampleMS t).filter
              (fun b => bucketMonth b.1 = p.1)).filterMap (fun b => b.2)))
    ∧ (∀ t : List (Date × Option ℚ),
        ((GetMonthlyStatistics t).map Prod.fst).Nodup)
    ∧ (1, some 20) ∈
        GetMonthlyStatistics [(⟨2000, 1, 1⟩, some 10), (⟨2001, 1, 1⟩, some 30)] := by
  refine ⟨?_, ?_, by rw [getMonthly_janTwoYear_eval]; exact List.mem_cons_self _ _⟩
  · intro t p hp
    simp only [GetMonthlyStatistics, List.mem_filterMap, List.mem_range] at hp
    obtain ⟨j, hj, hfj⟩ := hp
    by_cases hemp :
        ((resampleMS t).filter (fun b => bucketMonth b.1 = j + 1)).isEmpty = true
    · rw [if_pos hemp] at hfj
      exact absurd hfj (by simp)
    · rw [if_neg hemp] at hfj
      have hp' : p = (j + 1,
          meanOpt (((resampleMS t).filter
            (fun b => bucketMonth b.1 = j + 1)).filterMap (fun b => b.2))) :=
        (Option.some.inj hfj).symm
      subst hp'
      exact ⟨⟨Nat.le_add_left 1 j, by omega⟩, rfl⟩
  · intro t
    have h : (GetMonthlyStatistics t).map Prod.fst =
        (List.range 12).filterMap (fun j =>
          if ((resampleMS t).filter (fun b => bucketMonth b.1 = j + 1)).isEmpty
          then none else some (j + 1)) := by
      simp only [GetMonthlyStatistics, List.map_filterMap]
      refine List.filterMap_congr (fun j _ => ?_)
      by_cases hemp :
          ((resampleMS t).filter (fun b => bucketMonth b.1 = j + 1)).isEmpty = true <;>
        simp [hemp]
    rw [h]
    refine List.Nodup.filterMap ?_ (List.nodup_range 12)
    intro a a' b hb hb'
    by_cases ha : ((resampleMS t).filter (fun bb => bucketMonth bb.1 = a + 1)).isEmpty = true <;>
      by_cases ha' : ((resampleMS t).filter (fun bb => bucketMonth bb.1 = a' + 1)).isEmpty = true <;>
      simp [ha, ha'] at hb hb'
    omega

/-- Witness for C2 at the two-year January table: the January row is in
range, its value is the mean of its bucket means, the index is
duplicate-free, and January aggregates to 20. -/
theorem getMonthlyStatistics_spec_witness :
    ((1 ≤ ((1, some (20 : ℚ)) : Nat × Option ℚ).1
        ∧ ((1, some (20 : ℚ)) : Nat × Option ℚ).1 ≤ 12)
      ∧ ((1, some (20 : ℚ)) : Nat × Option ℚ).2 =
          meanOpt (((resampleMS [(⟨2000, 1, 1⟩, some 10), (⟨2001, 1, 1⟩, some 30)]).filter
            (fun b => bucketMonth b.1 = ((1, some (20 : ℚ)) : Nat × Option ℚ).1)).filterMap
              (fun b => b.2)))
    ∧ ((GetMonthlyStatistics [(⟨2000, 1, 1⟩, some 10), (⟨2001, 1, 1⟩, some 30)]).map
        Prod.fst).Nodup
    ∧ (1, some 20) ∈
        GetMonthlyStatistics [(⟨2000, 1, 1⟩, some 10), (⟨2001, 1, 1⟩, some 30)] :=
  ⟨getMonthlyStatistics_spec.1 [(⟨2000, 1, 1⟩, some 10), (⟨2001, 1, 1⟩, some 30)]
      (1, some 20) (by rw [getMonthly_janTwoYear_eval]; exact List.mem_cons_self _ _),
    getMonthlyStatistics_spec.2.1 [(⟨2000, 1, 1⟩, some 10), (⟨2001, 1, 1⟩, some 30)],
    getMonthlyStatistics_spec.2.2⟩

/-- Counterexample to C7: in a record holding 2000-01-15 and 2000-03-15
only, February 2000 has zero contributing days, yet the aggregator output
DOES have a row for month 2 — with an absent value — rather than no row. -/
theorem getMonthly_gapMonth_counterexample :
    GetMonthlyStatistics [(⟨2000, 1, 15⟩, some 5), (⟨2000, 3, 15⟩, some 7)] =
      [(1, some 5), (2, none), (3, some 7)]
    ∧ 2 ∈ (GetMonthlyStatistics
        [(⟨2000, 1, 15⟩, some 5), (⟨2000, 3, 15⟩, some 7)]).map Prod.fst := by
  have h : GetMonthlyStatistics [(⟨2000, 1, 15⟩, some 5), (⟨2000, 3, 15⟩, some 7)] =
      [(1, some 5), (2, none), (3, some 7)] := by
    norm_num [GetMonthlyStatistics, resampleMS, monthIdx, meanOpt, bucketMonth,
      List.range_succ, List.filterMap_cons, Option.some_ne_none, reduceCtorEq]
  refine ⟨h, ?_⟩
  rw [h]
  decide

/-- C7 (amended): the aggregator output has a row for calendar month `m`
exactly when some month-start bucket of the record's `resample` span has
month `m`; a month entirely outside the span yields no row (no zero, no
error), while an in-span month with zero contributing days yields a row
whose value is absent. -/
theorem getMonthly_monthPresence (t : List (Date × Option ℚ)) (m : Nat) :
    m ∈ (GetMonthlyStatistics t).map Prod.fst ↔
      ∃ b ∈ resampleMS t, bucketMonth b.1 = m := by
  constructor
  · intro hm
    simp only [GetMonthlyStatistics, List.map_filterMap, List.mem_filterMap,
      List.mem_range] at hm
    obtain ⟨j, hj, hfj⟩ := hm
    by_cases hemp :
        ((resampleMS t).filter (fun b => bucketMonth b.1 = j + 1)).isEmpty = true
    · rw [if_pos hemp] at hfj
      exact absurd hfj (by simp)
    · rw [if_neg hemp] at hfj
      simp only [Option.map_some', Option.some.injEq] at hfj
      have hne : ((resampleMS t).filter (fun b => bucketMonth b.1 = j + 1)) ≠ [] := by
        intro hc
        exact hemp (by rw [hc]; rfl)
      obtain ⟨b, hb⟩ := List.exists_mem_of_ne_nil _ hne
      have hb' := List.mem_filter.mp hb
      refine ⟨b, hb'.1, ?_⟩
      have hbm : bucketMonth b.1 = j + 1 := by
        simpa using hb'.2
      omega
  · intro ⟨b, hb, hbm⟩
    have hm12 : 1 ≤ m ∧ m ≤ 12 := by
      unfold bucketMonth at hbm
      omega
    simp only [GetMonthlyStatistics, List.map_filterMap, List.mem_filterMap,
      List.mem_range]
    refine ⟨m - 1, by omega, ?_⟩
    have hmm : m - 1 + 1 = m := by omega
    rw [hmm]
    have hne : ¬ ((resampleMS t).filter (fun bb => bucketMonth bb.1 = m)).isEmpty = true := by
      rw [List.isEmpty_iff]
      intro hc
      have : b ∈ ((resampleMS t).filter (fun bb => bucketMonth bb.1 = m)) :=
        List.mem_filter.mpr ⟨hb, by simpa using hbm⟩
      rw [hc] at this
      exact absurd this (List.not_mem_nil b)
    rw [if_neg hne]
    rfl

theorem countLt_of_forall_lt {l : List ℚ} {x : ℚ} (h : ∀ y ∈ l, y < x) :
    countLt l x = l.length := by
  unfold countLt
  rw [List.filter_eq_self.mpr (fun a ha => by simpa using h a ha)]

theorem countEq_eq_zero {l : List ℚ} {x : ℚ} (h : ∀ y ∈ l, y ≠ x) :
    countEq l x = 0 := by
  simp only [countEq, List.length_eq_zero, List.filter_eq_nil_iff]
  intro a ha
  simpa using h a ha

theorem countLt_cons_of_not_lt {a x : ℚ} {l : List ℚ} (h : ¬ a < x) :
    countLt (a :: l) x = countLt l x := by
  simp [countLt, List.filter_cons, h]

theorem countEq_cons_of_ne {a x : ℚ} {l : List ℚ} (h : ¬ a = x) :
    countEq (a :: l) x = countEq l x := by
  simp [countEq, List.filter_cons, h]

theorem countEq_cons_self {a : ℚ} {l : List ℚ} :
    countEq (a :: l) a = countEq l a + 1 := by
  simp [countEq, List.filter_cons, Nat.add_comm]

theorem rankAvg_strictDesc (p : List ℚ)
    (hp : List.Pairwise (fun a b => b < a) p) :
    rankAvg p = (List.range p.length).map (fun i => ((p.length - i : ℕ) : ℚ)) := by
  induction p with
  | nil => rfl
  | cons a rest ih =>
    obtain ⟨ha, hrest⟩ := List.pairwise_cons.mp hp
    have hlt : countLt (a :: rest) a = rest.length := by
      rw [countLt_cons_of_not_lt (lt_irrefl a), countLt_of_forall_lt ha]
    have heq : countEq (a :: rest) a = 1 := by
      rw [countEq_cons_self, countEq_eq_zero (fun y hy => ne_of_lt (ha y hy))]
    have htail : rest.map (fun x =>
        (countLt (a :: rest) x : ℚ) + ((countEq (a :: rest) x : ℚ) + 1) / 2) =
        rankAvg rest := by
      refine List.map_congr_left (fun x hx => ?_)
      rw [countLt_cons_of_not_lt (not_lt_of_gt (ha x hx)),
        countEq_cons_of_ne (ne_of_gt (ha x hx))]
    calc rankAvg (a :: rest)
        = ((countLt (a :: rest) a : ℚ) + ((countEq (a :: rest) a : ℚ) + 1) / 2) ::
            rest.map (fun x =>
              (countLt (a :: rest) x : ℚ) + ((countEq (a :: rest) x : ℚ) + 1) / 2) := rfl
      _ = ((rest.length : ℚ) + 1) :: rankAvg rest := by
            rw [hlt, heq, htail]; norm_num
      _ = (List.range (a :: rest).length).map
            (fun i => (((a :: rest).length - i : ℕ) : ℚ)) := by
            rw [ih hrest]
            rw [List.length_cons, List.range_succ_eq_map, List.map_cons, List.map_map]
            congr 1
            · rw [Nat.sub_zero]; push_cast; ring
            · refine (List.map_congr_left (fun i hi => ?_)).symm
              simp only [Function.comp_apply, Nat.succ_eq_add_one]
              congr 1
              omega

theorem sortDesc_perm (xs : List ℚ) : (sortDesc xs).Perm xs :=
  List.perm_insertionSort _ _

theorem sortDesc_length (xs : List ℚ) : (sortDesc xs).length = xs.length :=
  List.length_insertionSort _ _

theorem sortDesc_sorted (xs : List ℚ) :
    (sortDesc xs).Sorted (fun a b => b ≤ a) :=
  List.sorted_insertionSort _ _

theorem sortDesc_pairwise_gt (xs : List ℚ) (h : xs.Nodup) :
    List.Pairwise (fun a b => b < a) (sortDesc xs) := by
  have hnd : (sortDesc xs).Nodup := ((sortDesc_perm xs).nodup_iff).mpr h
  exact ((sortDesc_sorted xs).and hnd).imp
    (fun hab => lt_of_le_of_ne hab.1 hab.2.symm)

theorem fig6exc_length (xs : List ℚ) : (fig6exc xs).length = xs.length := by
  simp [fig6exc, rankAvg, sortDesc_length]

theorem fig6exc_getD_of_nodup (xs : List ℚ) (hnd : xs.Nodup)
    (k : Nat) (hk : k < xs.length) :
    (fig6exc xs).getD k 0 = ((k : ℚ) + 1) / ((xs.length : ℚ) + 1) := by
  have hplen := sortDesc_length xs
  have hrank := rankAvg_strictDesc (sortDesc xs) (sortDesc_pairwise_gt xs hnd)
  rw [hplen] at hrank
  have hk' : k < (fig6exc xs).length := by rw [fig6exc_length]; exact hk
  rw [List.getD_eq_getElem _ _ hk']
  simp only [fig6exc, List.getElem_map, List.getElem_reverse]
  rw [List.getElem_of_eq hrank]
  simp only [List.getElem_map, List.getElem_range]
  have hlen' : (rankAvg (sortDesc xs)).length = xs.length := by
    simp [rankAvg, hplen]
  rw [hlen']
  have : xs.length - (xs.length - 1 - k) = k + 1 := by omega
  rw [this]
  push_cast
  ring_nf

/-- C10 (amended): for peak flows with pairwise-distinct values the
figure-6 computation pairs the k-th largest peak with exceedance
probability `k / (n + 1)`, every exceedance lies strictly between 0 and 1,
and exceedance is strictly decreasing in peak-flow magnitude along the
descending-sorted series; when ties occur the reversed-rank pairing can
give tied peaks unequal exceedance values instead. -/
theorem fig6_exceedance_distinct (xs : List ℚ) (hnd : xs.Nodup) :
    (sortDesc xs).Perm xs
    ∧ (sortDesc xs).Sorted (fun a b => b ≤ a)
    ∧ (∀ k, k < xs.length →
        (fig6pairs xs).getD k (0, 0) =
          (((k : ℚ) + 1) / ((xs.length : ℚ) + 1), (sortDesc xs).getD k 0)
        ∧ 0 < ((k : ℚ) + 1) / ((xs.length : ℚ) + 1)
        ∧ ((k : ℚ) + 1) / ((xs.length : ℚ) + 1) < 1)
    ∧ (∀ j k, j < k → k < xs.length →
        (sortDesc xs).getD k 0 < (sortDesc xs).getD j 0
        ∧ (fig6exc xs).getD j 0 < (fig6exc xs).getD k 0) := by
  have hpos : (0 : ℚ) < (xs.length : ℚ) + 1 := by positivity
  refine ⟨sortDesc_perm xs, sortDesc_sorted xs, ?_, ?_⟩
  · intro k hk
    have hk1 : k < (fig6exc xs).length := by rw [fig6exc_length]; exact hk
    have hk2 : k < (sortDesc xs).length := by rw [sortDesc_length]; exact hk
    have hkz : k < (fig6pairs xs).length := by
      simp only [fig6pairs, List.length_zip, fig6exc_length, sortDesc_length]
      omega
    refine ⟨?_, ?_, ?_⟩
    · rw [List.getD_eq_getElem _ _ hkz]
      simp only [fig6pairs, List.getElem_zip]
      rw [← List.getD_eq_getElem (fig6exc xs) 0 hk1,
        ← List.getD_eq_getElem (sortDesc xs) 0 hk2,
        fig6exc_getD_of_nodup xs hnd k hk]
    · positivity
    · rw [div_lt_one hpos]
      have : (k : ℚ) < (xs.length : ℚ) := by exact_mod_cast hk
      linarith
  · intro j k hjk hk
    have hj : j < xs.length := by omega
    have hk2 : k < (sortDesc xs).length := by rw [sortDesc_length]; exact hk
    have hj2 : j < (sortDesc xs).length := by rw [sortDesc_length]; exact hj
    constructor
    · rw [List.getD_eq_getElem _ _ hk2, List.getD_eq_getElem _ _ hj2]
      exact (List.pairwise_iff_getElem.mp (sortDesc_pairwise_gt xs hnd)) j k hj2 hk2 hjk
    · rw [fig6exc_getD_of_nodup xs hnd j hj, fig6exc_getD_of_nodup xs hnd k hk]
      rw [div_lt_div_iff_of_pos_right hpos]
      have : (j : ℚ) < (k : ℚ) := by exact_mod_cast hjk
      linarith

/-- Counterexample to C10 as stated: with peaks `[5, 3, 3]` the two tied
peaks of value 3 receive exceedances `3/8` and `3/4` — ties under
'average' ranking do NOT receive equal exceedance, because the code pairs
`peak[i]` with the rank of `peak[n-1-i]`. -/
theorem fig6_ties_counterexample :
    fig6pairs [5, 3, 3] = [(3/8, 5), (3/8, 3), (3/4, 3)]
    ∧ ((3 : ℚ)/8 ≠ 3/4) := by
  constructor
  · norm_num [fig6pairs, fig6exc, rankAvg, sortDesc, countLt, countEq,
      List.insertionSort, List.orderedInsert, List.filter_cons]
  · norm_num

/-- Witness for C10 (amended) on the distinct peaks `[5, 3, 1]`: the
largest peak is paired with exceedance `1/4`, which lies in `(0, 1)`, and
both magnitude and exceedance are strictly ordered between positions 0
and 1. -/
theorem fig6_exceedance_distinct_witness :
    (sortDesc [5, 3, 1]).Perm [5, 3, 1]
    ∧ ((fig6pairs [5, 3, 1]).getD 0 (0, 0) =
        ((((0 : ℕ) : ℚ) + 1) / ((([5, 3, 1] : List ℚ).length : ℚ) + 1),
          (sortDesc [5, 3, 1]).getD 0 0)
      ∧ 0 < (((0 : ℕ) : ℚ) + 1) / ((([5, 3, 1] : List ℚ).length : ℚ) + 1)
      ∧ (((0 : ℕ) : ℚ) + 1) / ((([5, 3, 1] : List ℚ).length : ℚ) + 1) < 1)
    ∧ ((sortDesc [5, 3, 1]).getD 1 0 < (sortDesc [5, 3, 1]).getD 0 0
      ∧ (fig6exc [5, 3, 1]).getD 0 0 < (fig6exc [5, 3, 1]).getD 1 0) :=
  ⟨(fig6_exceedance_distinct [5, 3, 1] (by decide)).1,
   (fig6_exceedance_distinct [5, 3, 1] (by decide)).2.2.1 0 (by decide),
   (fig6_exceedance_distinct [5, 3, 1] (by decide)).2.2.2 0 1 (by decide) (by decide)⟩
